import Mathlib

/-!
# Verification of the gradient-descent optimiser (`gradient_decent.h`, `mathematical_constraint.h`)

Shallow embedding of the `gd::gradient_decent` engine and the
`aux::constraints_system` penalty subsystem.  The engine is generic over the
pack of optimisation variables; we model an `n`-dimensional engine over exact
rationals `ℚ` (the C++ code instantiates `float`/`double`; `ℚ` models the real
arithmetic exactly, with the one caveat that division by zero yields `0` in
Lean where IEEE arithmetic would yield `inf`/`nan` — no claim below depends on
a division-by-zero value).  Decimal literals such as `0.99` denote the exact
rationals the C++ source literals denote.

The user objective (wrapped by `eval_func_at`) is an opaque callable; it is
modelled as an abstract function `f : (Fin n → ℚ) → ℚ` giving the value of an
evaluation (objective plus penalty when constraints are active).  Constraint
functions may fail at runtime, so they are modelled as `(Fin m → ℚ) → Except Unit ℚ`.
-/

namespace gd

/-- Mutable state of a `gd::gradient_decent<returnType, argType...>` instance
(the data members declared at `gradient_decent.h:566-650`).  Tuples of the
`n` optimisation variables are modelled as functions `Fin n → ℚ`; the
`std::array` of step scales likewise.  The configuration members `max_eval`
and `tolerance` are never mutated by the algorithm, so they are passed as
explicit parameters to the functions that read them. -/
@[ext]
structure GDState (n : ℕ) where
  optimal_point : Fin n → ℚ
  old_optimal_point : Fin n → ℚ
  optimal_val : ℚ
  current_tolerance : ℚ
  learning_rate : ℚ
  finite_difference_step : ℚ
  step_scales : Fin n → ℚ
  derivatives : Fin n → ℚ
  derivative_high : Fin n → ℚ
  lower_bounds : Fin n → ℚ
  upper_bounds : Fin n → ℚ

/-- `bounds_projection` (`gradient_decent.h:867-873`): clamp every coordinate
first to its lower bound, then to its upper bound.  The two fold expressions
of the source act on each coordinate independently, so the projection is the
per-coordinate composition of the two clamps. -/
def bounds_projection (lb ub p : Fin n → ℚ) : Fin n → ℚ := fun i =>
  let low := if p i < lb i then lb i else p i
  if low > ub i then ub i else low

/-- `check_point_bounds` (`gradient_decent.h:885-890`), exactly as written in
the source: the fold requires EVERY coordinate of `optimal_point` to be
strictly below its lower bound, AND every coordinate to be strictly above its
upper bound, to report `true` (the caller treats `true` as "out of bounds"). -/
def check_point_bounds (s : GDState n) : Bool :=
  ((List.finRange n).all fun i => decide (s.optimal_point i < s.lower_bounds i)) &&
  ((List.finRange n).all fun i => decide (s.optimal_point i > s.upper_bounds i))

/-- `add_lower_bounds` (`gradient_decent.h:297-306`): store the bounds, then
throw a `runtime_error` when `check_point_bounds` returns `true`.  The thrown
exception is modelled as `Except.error ()`. -/
def add_lower_bounds (s : GDState n) (lb : Fin n → ℚ) : Except Unit (GDState n) :=
  let s' := { s with lower_bounds := lb }
  if check_point_bounds s' then Except.error () else Except.ok s'

/-- `add_upper_bounds` (`gradient_decent.h:355-364`), symmetric to
`add_lower_bounds`. -/
def add_upper_bounds (s : GDState n) (ub : Fin n → ℚ) : Except Unit (GDState n) :=
  let s' := { s with upper_bounds := ub }
  if check_point_bounds s' then Except.error () else Except.ok s'

/-- `create_next_point` (`gradient_decent.h:959-962`): classic descent update
`pᵢ - dᵢ · learning_rate · step_scaleᵢ`. -/
def create_next_point (s : GDState n) (p : Fin n → ℚ) : Fin n → ℚ :=
  fun i => p i - s.derivatives i * s.learning_rate * s.step_scales i

/-- The candidate produced by the `k`-th execution of the back-tracking loop
body (`gradient_decent.h:754-755`) started from state `s` and argument point
`inPoint`: only the learning rate changes between attempts, having been decayed
`k` times by `0.99`. -/
def bt_candidate (s : GDState n) (inPoint : Fin n → ℚ) (k : ℕ) : Fin n → ℚ :=
  bounds_projection s.lower_bounds s.upper_bounds
    (fun i => inPoint i - s.derivatives i * (s.learning_rate * (0.99 : ℚ) ^ k) * s.step_scales i)

/-- The do-while loop of `step_forward_with_back_tracking`
(`gradient_decent.h:750-765`).  `count` is `iterative_count`; the body runs,
then the post-increment condition `iterative_count++ < 1000` decides whether
to repeat.  Returns the final state, the final value of `iterative_count`, and
whether the loop exited through the `break` (success) path.  `f` models
`eval_func_at`. -/
def back_tracking_loop (f : (Fin n → ℚ) → ℚ) (inPoint : Fin n → ℚ)
    (s : GDState n) (count : ℕ) : GDState n × ℕ × Bool :=
  let point' := bounds_projection s.lower_bounds s.upper_bounds (create_next_point s inPoint)
  let s1 := { s with optimal_point := point' }
  let test := f point'
  if test > s1.optimal_val then
    let s2 := { s1 with learning_rate := s1.learning_rate * (0.99 : ℚ) }
    if h : count < 1000 then back_tracking_loop f inPoint s2 (count + 1)
    else (s2, count + 1, false)
  else
    ({ s1 with current_tolerance := |s1.optimal_val - test|, optimal_val := test }, count, true)
termination_by 1000 - count
decreasing_by omega

/-- `step_forward_with_back_tracking` (`gradient_decent.h:750-770`): run the
loop from `iterative_count = 0`, then throw
`"Cannot find next point using back-tracking algorithm"` when the final
counter reached `iterative_count_max = 1000`.  The error carries the engine
state left behind by the loop (C++ exceptions do not roll back `this`). -/
def step_forward_with_back_tracking (f : (Fin n → ℚ) → ℚ) (inPoint : Fin n → ℚ)
    (s : GDState n) : Except (GDState n) (GDState n) :=
  let r := back_tracking_loop f inPoint s 0
  if r.2.1 ≥ 1000 then Except.error r.1 else Except.ok r.1

/-- The do-while loop of `secant_learning_rate_scaling`
(`gradient_decent.h:1039-1043`).  `F` is the closure `find_new_val`,
`in_current_val` the mutable parameter `IN_CURRENT_VAL`, `count` the
`iterative_count` checked post-increment against `iterative_max = 100`. -/
def secant_loop (F : ℚ → ℚ) (current_rate new_rate in_current_val : ℚ) (count : ℕ) : ℚ :=
  let new_val := F new_rate
  let next_rate := new_rate - new_val * (new_rate - current_rate) / (new_val - in_current_val)
  let current_rate' := new_rate
  let in_current_val' := F current_rate'
  if h : |next_rate - current_rate'| > (0.001 : ℚ) ∧ count < 100 then
    secant_loop F current_rate' next_rate in_current_val' (count + 1)
  else next_rate
termination_by 100 - count
decreasing_by omega

/-- `secant_learning_rate_scaling` (`gradient_decent.h:1025-1045`): secant
root search for a learning rate making the (un-projected) step value match
`IN_REQUIRED_VAL`, started from `current_rate = 0`, `new_rate = -0.5`.  The
candidate points are built from `this->optimal_point`, `step_scales` and
`derivatives` of the state `s` at call time. -/
def secant_learning_rate_scaling (f : (Fin n → ℚ) → ℚ) (s : GDState n)
    (inCurrentVal inRequiredVal : ℚ) : ℚ :=
  secant_loop
    (fun r => f (fun i => s.optimal_point i - r * s.step_scales i * s.derivatives i) - inRequiredVal)
    0 (-(0.5 : ℚ)) inCurrentVal 0

/-- `step_forward_with_secant_method` (`gradient_decent.h:711-724`): take one
bounds-projected trial step; if worse than `optimal_val`, add the secant
adjustment to the learning rate, halve it, retake the step once and accept
unconditionally; otherwise accept the trial and set `current_tolerance`. -/
def step_forward_with_secant_method (f : (Fin n → ℚ) → ℚ) (inPoint : Fin n → ℚ)
    (s : GDState n) : GDState n :=
  let trial := bounds_projection s.lower_bounds s.upper_bounds (create_next_point s inPoint)
  let s1 := { s with optimal_point := trial }
  let test := f trial
  if test > s1.optimal_val then
    let adj := secant_learning_rate_scaling f s1 (test - s1.optimal_val) s1.optimal_val
    let s2 := { s1 with learning_rate := (s1.learning_rate + adj) * (0.5 : ℚ) }
    let trial2 := bounds_projection s2.lower_bounds s2.upper_bounds (create_next_point s2 inPoint)
    { s2 with optimal_point := trial2, optimal_val := f trial2 }
  else
    { s1 with current_tolerance := |s1.optimal_val - test|, optimal_val := test }

/-- `set_high_derivatives_helper<i>` (`gradient_decent.h:784-790`): when the
current `|derivativeᵢ|` strictly exceeds the recorded `|derivative_highᵢ|`,
reset the learning rate to `1.0` and record the new derivative. -/
def set_high_derivatives_helper (i : Fin n) (s : GDState n) : GDState n :=
  if |s.derivatives i| > |s.derivative_high i| then
    { s with learning_rate := 1,
             derivative_high := Function.update s.derivative_high i (s.derivatives i) }
  else s

/-- `set_high_derivatives` (`gradient_decent.h:801-804`): fold the helper over
every dimension in order. -/
def set_high_derivatives (s : GDState n) : GDState n :=
  (List.finRange n).foldl (fun t i => set_high_derivatives_helper i t) s

/-- `get_tolerance` (`gradient_decent.h:944-947`): the live tolerance plus the
euclidean distance between the current and the previous optimal point.
`dist` abstracts `get_distance_tuple` (`gradient_decent.h:930-934`), whose
`std::sqrt` has no exact rational value; every claim proved below holds for
an arbitrary distance function. -/
def get_tolerance (dist : (Fin n → ℚ) → (Fin n → ℚ) → ℚ) (s : GDState n) : ℚ :=
  s.current_tolerance + dist s.optimal_point s.old_optimal_point

/-- Failure outcomes of `perform_gradient_decent`: a `runtime_error` escaping
an iteration body (back-tracking exhaustion), carrying the engine state, or
the final `"Gradient descent failed to converge"` error. -/
inductive GDError (n : ℕ) where
  | step_failure (s : GDState n)
  | convergence_failure

/-- The do-while loop of `perform_gradient_decent` (`gradient_decent.h:543-553`).
`body` abstracts one iteration body (snapshot `old_optimal_point`, reset step
scales, `calculate_derivatives_at`, then one of the two step algorithms — all
of which evaluate the opaque user objective); a body error models an exception
thrown by the step.  `eval` is the local counter: the post-increment condition
`eval++ < max_eval` compares the pre-increment value and always increments. -/
def gd_loop (dist : (Fin n → ℚ) → (Fin n → ℚ) → ℚ)
    (body : GDState n → Except (GDState n) (GDState n)) (max_eval : ℕ) (tolerance : ℚ)
    (s : GDState n) (eval : ℕ) : Except (GDState n) (GDState n × ℕ) :=
  match body s with
  | Except.error e => Except.error e
  | Except.ok s' =>
    if h : eval < max_eval ∧ get_tolerance dist s' > tolerance then
      gd_loop dist body max_eval tolerance s' (eval + 1)
    else Except.ok (s', eval + 1)
termination_by max_eval - eval
decreasing_by omega

/-- `perform_gradient_decent` (`gradient_decent.h:543-565`): run the loop from
`eval = 0`; afterwards throw `"Gradient descent failed to converge"` when
`eval >= max_eval` and `current_tolerance > tolerance`, else return the pair
`(optimal_val, optimal_point)`. -/
def perform_gradient_decent (dist : (Fin n → ℚ) → (Fin n → ℚ) → ℚ)
    (body : GDState n → Except (GDState n) (GDState n)) (max_eval : ℕ) (tolerance : ℚ)
    (s : GDState n) : Except (GDError n) (ℚ × (Fin n → ℚ)) :=
  match gd_loop dist body max_eval tolerance s 0 with
  | Except.error e => Except.error (GDError.step_failure e)
  | Except.ok (s', eval) =>
    if eval ≥ max_eval ∧ s'.current_tolerance > tolerance then
      Except.error GDError.convergence_failure
    else Except.ok (s'.optimal_val, s'.optimal_point)

/-- Value-initialised bound tuples (`gradient_decent.h:599-606`): the members
`lower_bounds {}` and `upper_bounds {}` zero-initialise every arithmetic
coordinate when the caller never invokes `add_lower_bounds`/`add_upper_bounds`. -/
def default_bounds (n : ℕ) : Fin n → ℚ := fun _ => 0

end gd

namespace aux

/-- `get_constraint_violation` (`mathematical_constraint.h:304-313`): the
sequence of early-return `if`s, written as an if-else chain (each `if` tests a
distinct operator string so the translation is exact).  `maxV` models
`std::numeric_limits<...>::max()`, the largest representable value of the
C++ numeric type. -/
def get_constraint_violation (maxV obtained required : ℚ) (op : String) (tol : ℚ) : ℚ :=
  let diff := obtained - required
  if op = "<" ∧ diff ≥ 0 ∧ |diff| > tol then |diff|
  else if op = "<=" ∧ diff > 0 ∧ |diff| > tol then |diff|
  else if op = ">" ∧ diff ≤ 0 ∧ |diff| > tol then |diff|
  else if op = ">=" ∧ diff < 0 ∧ |diff| > tol then |diff|
  else if op = "=" ∧ |diff| > tol then |diff|
  else if op = "!=" ∧ |diff| < tol then maxV
  else 0

/-- The loop `for (auto& each_constraint : vector_of_constraints) { std::apply(...) }`
(`mathematical_constraint.h:327`): run every stored constraint function on the
argument point in order, collecting the obtained values; the first raised
failure aborts the whole loop. -/
def apply_all : List ((Fin m → ℚ) → Except Unit ℚ) → (Fin m → ℚ) → Except Unit (List ℚ)
  | [], _ => Except.ok []
  | c :: rest, args =>
    match c args with
    | Except.error e => Except.error e
    | Except.ok v =>
      match apply_all rest args with
      | Except.error e => Except.error e
      | Except.ok vs => Except.ok (v :: vs)

/-- The summation lambda `get_penalty_` (`mathematical_constraint.h:329-337`):
`penalty += get_constraint_violation(obtained_i, value_i, operators[i], tolerances[i])`
over the constraint indices. -/
def penalty_sum (maxV : ℚ) : List ℚ → List ℚ → List String → List ℚ → ℚ
  | o :: os, v :: vs, p :: ps, t :: ts =>
    get_constraint_violation maxV o v p t + penalty_sum maxV os vs ps ts
  | _, _, _, _ => 0

/-- `get_penalty` (`mathematical_constraint.h:323-345`): evaluate every
constraint function, sum the violations, multiply by the slope `1e9`; any
exception raised along the way is caught and the penalty reset to the default
value `{}` (zero), so the function always returns normally. -/
def get_penalty (maxV : ℚ) (constraints : List ((Fin m → ℚ) → Except Unit ℚ))
    (values : List ℚ) (ops : List String) (tols : List ℚ) (args : Fin m → ℚ) : ℚ :=
  match apply_all constraints args with
  | Except.error _ => 0
  | Except.ok obtained => (1000000000.0 : ℚ) * penalty_sum maxV obtained values ops tols

end aux

namespace gd

/-- Concrete one-dimensional engine state used by the witnesses below
(guess `0`, derivative `1`, learning rate `1`, live tolerance `1`, bounds
`[-10, 10]`). -/
def demo_state : GDState 1 where
  optimal_point := fun _ => 0
  old_optimal_point := fun _ => 0
  optimal_val := 0
  current_tolerance := 1
  learning_rate := 1
  finite_difference_step := 0.001
  step_scales := fun _ => 1
  derivatives := fun _ => 1
  derivative_high := fun _ => 0
  lower_bounds := fun _ => -10
  upper_bounds := fun _ => 10

/-- The demo state with the bound members left value-initialised at zero. -/
def demo_state_zero_bounds : GDState 1 :=
  { demo_state with lower_bounds := default_bounds 1, upper_bounds := default_bounds 1 }

/-- Two-dimensional engine state whose initial guess `(-5, 0)` has its first
coordinate below the lower bound that `add_lower_bounds` is about to
install. -/
def c1_state : GDState 2 where
  optimal_point := fun i => if i = 0 then -5 else 0
  old_optimal_point := fun _ => 0
  optimal_val := 0
  current_tolerance := 0.002
  learning_rate := 1
  finite_difference_step := 0.001
  step_scales := fun _ => 1
  derivatives := fun _ => 0
  derivative_high := fun _ => 0
  lower_bounds := fun _ => 0
  upper_bounds := fun _ => 0

/-- The lower-bound tuple `(0, 0)` installed in the C1 run. -/
def c1_lower : Fin 2 → ℚ := fun _ => 0

/-- The upper-bound tuple `(-10, -10)`: every coordinate of the guess lies
strictly above it. -/
def c1_upper : Fin 2 → ℚ := fun _ => -10

/-- Constant objective `-1`: every candidate improves on `demo_state`. -/
def demo_f_improving : (Fin 1 → ℚ) → ℚ := fun _ => -1

/-- Constant objective `1`: every candidate worsens `demo_state`. -/
def demo_f_worsening : (Fin 1 → ℚ) → ℚ := fun _ => 1

/-- A concrete distance function for the loop witnesses (the loop claims hold
for every distance function). -/
def demo_dist : (Fin 1 → ℚ) → (Fin 1 → ℚ) → ℚ := fun _ _ => 0

/-- Identity iteration body for the loop witnesses. -/
def demo_body : GDState 1 → Except (GDState 1) (GDState 1) := fun s => Except.ok s

/-- Zero starting point for the step witnesses. -/
def demo_point : Fin 1 → ℚ := fun _ => 0

end gd

namespace aux

/-- Constraint function that always raises, for the C7 witness. -/
def demo_failing_constraint : (Fin 1 → ℚ) → Except Unit ℚ := fun _ => Except.error ()

end aux

namespace gd

variable {n : ℕ}

/-- The first candidate evaluated by the back-tracking loop body is
`bt_candidate s inPoint 0`. -/
theorem bt_candidate_zero (s : GDState n) (inPoint : Fin n → ℚ) :
    bt_candidate s inPoint 0 =
      bounds_projection s.lower_bounds s.upper_bounds (create_next_point s inPoint) := by
  have h : (fun i => inPoint i - s.derivatives i * (s.learning_rate * (0.99 : ℚ) ^ 0) * s.step_scales i)
      = create_next_point s inPoint := by
    funext i
    show _ = inPoint i - s.derivatives i * s.learning_rate * s.step_scales i
    ring
  exact congrArg (bounds_projection s.lower_bounds s.upper_bounds) h

/-- Decaying the learning rate once shifts the candidate index by one. -/
theorem bt_candidate_decay (s : GDState n) (X inPoint : Fin n → ℚ) (k : ℕ) :
    bt_candidate
        { s with optimal_point := X, learning_rate := s.learning_rate * (0.99 : ℚ) } inPoint k
      = bt_candidate s inPoint (k + 1) := by
  have h : (fun i => inPoint i - s.derivatives i * (s.learning_rate * (0.99 : ℚ) * (0.99 : ℚ) ^ k) * s.step_scales i)
      = (fun i => inPoint i - s.derivatives i * (s.learning_rate * (0.99 : ℚ) ^ (k + 1)) * s.step_scales i) := by
    funext i
    ring
  exact congrArg (bounds_projection s.lower_bounds s.upper_bounds) h

/-- One worsening iteration of the loop with the counter still below the cap:
decay the learning rate by `0.99` and retry. -/
theorem back_tracking_loop_worse_lt (f : (Fin n → ℚ) → ℚ) (inPoint : Fin n → ℚ)
    (s : GDState n) (count : ℕ)
    (h : f (bt_candidate s inPoint 0) > s.optimal_val) (hc : count < 1000) :
    back_tracking_loop f inPoint s count =
      back_tracking_loop f inPoint
        { s with optimal_point := bt_candidate s inPoint 0,
                 learning_rate := s.learning_rate * (0.99 : ℚ) } (count + 1) := by
  rw [bt_candidate_zero] at h ⊢
  rw [back_tracking_loop]
  simp only [if_pos h, dif_pos hc]

/-- One worsening iteration with the counter at the cap: the loop exits with
counter `count + 1` and no success flag. -/
theorem back_tracking_loop_worse_ge (f : (Fin n → ℚ) → ℚ) (inPoint : Fin n → ℚ)
    (s : GDState n) (count : ℕ)
    (h : f (bt_candidate s inPoint 0) > s.optimal_val) (hc : ¬ count < 1000) :
    back_tracking_loop f inPoint s count =
      ({ s with optimal_point := bt_candidate s inPoint 0,
                learning_rate := s.learning_rate * (0.99 : ℚ) }, count + 1, false) := by
  rw [bt_candidate_zero] at h ⊢
  rw [back_tracking_loop]
  simp only [if_pos h, dif_neg hc]

/-- A non-worsening candidate breaks out of the loop at once, recording the
live tolerance and accepting the point and value. -/
theorem back_tracking_loop_break (f : (Fin n → ℚ) → ℚ) (inPoint : Fin n → ℚ)
    (s : GDState n) (count : ℕ)
    (h : f (bt_candidate s inPoint 0) ≤ s.optimal_val) :
    back_tracking_loop f inPoint s count =
      ({ s with optimal_point := bt_candidate s inPoint 0,
                current_tolerance := |s.optimal_val - f (bt_candidate s inPoint 0)|,
                optimal_val := f (bt_candidate s inPoint 0) }, count, true) := by
  rw [bt_candidate_zero] at h ⊢
  rw [back_tracking_loop]
  simp only [if_neg (not_lt.mpr h)]

end gd

namespace gd

variable {n : ℕ}

/-- Full characterisation of a successful back-tracking loop run: if the first
`k` candidates are worse and the `k`-th is not, the loop breaks at counter
`count + k` with the `k`-th candidate accepted and the learning rate decayed
`k` times. -/
theorem back_tracking_loop_success (f : (Fin n → ℚ) → ℚ) (inPoint : Fin n → ℚ) :
    ∀ (k count : ℕ) (s : GDState n), count + k ≤ 1000 →
      (∀ j, j < k → f (bt_candidate s inPoint j) > s.optimal_val) →
      f (bt_candidate s inPoint k) ≤ s.optimal_val →
      back_tracking_loop f inPoint s count =
        ({ s with optimal_point := bt_candidate s inPoint k,
                  learning_rate := s.learning_rate * (0.99 : ℚ) ^ k,
                  current_tolerance := |s.optimal_val - f (bt_candidate s inPoint k)|,
                  optimal_val := f (bt_candidate s inPoint k) }, count + k, true) := by
  intro k
  induction k with
  | zero =>
    intro count s _ _ hsucc
    rw [back_tracking_loop_break f inPoint s count hsucc]
    simp [pow_zero, mul_one]
  | succ k ih =>
    intro count s hle hworse hsucc
    have h0 : f (bt_candidate s inPoint 0) > s.optimal_val := hworse 0 (Nat.succ_pos k)
    rw [back_tracking_loop_worse_lt f inPoint s count h0 (by omega)]
    set s2 : GDState n :=
      { s with optimal_point := bt_candidate s inPoint 0,
               learning_rate := s.learning_rate * (0.99 : ℚ) } with hs2
    have hcand : ∀ j, bt_candidate s2 inPoint j = bt_candidate s inPoint (j + 1) := by
      intro j; rw [hs2]; exact bt_candidate_decay s (bt_candidate s inPoint 0) inPoint j
    have hval : s2.optimal_val = s.optimal_val := rfl
    have hrec := ih (count + 1) s2 (by omega)
      (by intro j hj; rw [hcand j, hval]; exact hworse (j + 1) (by omega))
      (by rw [hcand k, hval]; exact hsucc)
    rw [hrec, hcand k]
    simp only [hs2, Prod.mk.injEq, GDState.mk.injEq, and_true, true_and]
    exact ⟨by ring, by omega⟩

end gd

namespace gd

variable {n : ℕ}

/-- Full characterisation of an exhausted back-tracking loop run: if every
candidate up to index `m = 1000 - count` is worse, the loop exits with counter
`1001`, the last rejected candidate stored in `optimal_point`, the learning
rate decayed `m + 1` times, and the pre-loop `optimal_val` and
`current_tolerance` untouched. -/
theorem back_tracking_loop_exhaust (f : (Fin n → ℚ) → ℚ) (inPoint : Fin n → ℚ) :
    ∀ (m count : ℕ) (s : GDState n), count + m = 1000 →
      (∀ j, j ≤ m → f (bt_candidate s inPoint j) > s.optimal_val) →
      back_tracking_loop f inPoint s count =
        ({ s with optimal_point := bt_candidate s inPoint m,
                  learning_rate := s.learning_rate * (0.99 : ℚ) ^ (m + 1) }, 1001, false) := by
  intro m
  induction m with
  | zero =>
    intro count s hc hworse
    rw [back_tracking_loop_worse_ge f inPoint s count (hworse 0 le_rfl) (by omega)]
    simp only [Prod.mk.injEq, GDState.mk.injEq, and_true, true_and]
    exact ⟨by ring, by omega⟩
  | succ m ih =>
    intro count s hc hworse
    rw [back_tracking_loop_worse_lt f inPoint s count (hworse 0 (by omega)) (by omega)]
    set s2 : GDState n :=
      { s with optimal_point := bt_candidate s inPoint 0,
               learning_rate := s.learning_rate * (0.99 : ℚ) } with hs2
    have hcand : ∀ j, bt_candidate s2 inPoint j = bt_candidate s inPoint (j + 1) := by
      intro j
      rw [hs2]
      exact bt_candidate_decay s (bt_candidate s inPoint 0) inPoint j
    have hval : s2.optimal_val = s.optimal_val := rfl
    have hrec := ih (count + 1) s2 (by omega)
      (by intro j hj; rw [hcand j, hval]; exact hworse (j + 1) (by omega))
    rw [hrec, hcand m]
    simp only [hs2, Prod.mk.injEq, GDState.mk.injEq, and_true, true_and]
    ring

end gd

namespace gd

variable {n : ℕ}

/-- A successful break strictly inside the attempt budget lets
`step_forward_with_back_tracking` return normally with the accepted state. -/
theorem step_back_tracking_ok (f : (Fin n → ℚ) → ℚ) (inPoint : Fin n → ℚ)
    (s : GDState n) (k : ℕ) (hk : k < 1000)
    (hworse : ∀ j, j < k → f (bt_candidate s inPoint j) > s.optimal_val)
    (hsucc : f (bt_candidate s inPoint k) ≤ s.optimal_val) :
    step_forward_with_back_tracking f inPoint s =
      Except.ok { s with optimal_point := bt_candidate s inPoint k,
                         learning_rate := s.learning_rate * (0.99 : ℚ) ^ k,
                         current_tolerance := |s.optimal_val - f (bt_candidate s inPoint k)|,
                         optimal_val := f (bt_candidate s inPoint k) } := by
  unfold step_forward_with_back_tracking
  rw [back_tracking_loop_success f inPoint k 0 s (by omega) hworse hsucc]
  simp only [Nat.zero_add]
  rw [if_neg (by omega)]

/-- A break exactly at the attempt cap (`iterative_count = 1000`) still throws
the exhaustion error, but with the accepted state already stored. -/
theorem step_back_tracking_late_break (f : (Fin n → ℚ) → ℚ) (inPoint : Fin n → ℚ)
    (s : GDState n)
    (hworse : ∀ j, j < 1000 → f (bt_candidate s inPoint j) > s.optimal_val)
    (hsucc : f (bt_candidate s inPoint 1000) ≤ s.optimal_val) :
    step_forward_with_back_tracking f inPoint s =
      Except.error { s with optimal_point := bt_candidate s inPoint 1000,
                            learning_rate := s.learning_rate * (0.99 : ℚ) ^ 1000,
                            current_tolerance := |s.optimal_val - f (bt_candidate s inPoint 1000)|,
                            optimal_val := f (bt_candidate s inPoint 1000) } := by
  unfold step_forward_with_back_tracking
  rw [back_tracking_loop_success f inPoint 1000 0 s (by omega) hworse hsucc]
  simp only [Nat.zero_add]
  rw [if_pos (by omega)]

/-- When every candidate the loop can evaluate is worse, the step throws with
the last rejected candidate stored and the pre-step value retained. -/
theorem step_back_tracking_exhaust (f : (Fin n → ℚ) → ℚ) (inPoint : Fin n → ℚ)
    (s : GDState n)
    (hworse : ∀ j, j ≤ 1000 → f (bt_candidate s inPoint j) > s.optimal_val) :
    step_forward_with_back_tracking f inPoint s =
      Except.error { s with optimal_point := bt_candidate s inPoint 1000,
                            learning_rate := s.learning_rate * (0.99 : ℚ) ^ 1001 } := by
  unfold step_forward_with_back_tracking
  rw [back_tracking_loop_exhaust f inPoint 1000 0 s (by omega) hworse]
  norm_num

end gd

namespace gd

variable {n : ℕ}

/-- Every run of the back-tracking loop from counter `0` either breaks at the
first non-worsening candidate (index `≤ 1000`) or exhausts all `1001`
candidate evaluations. -/
theorem back_tracking_loop_run_cases (f : (Fin n → ℚ) → ℚ) (inPoint : Fin n → ℚ)
    (s : GDState n) :
    (∃ k, k ≤ 1000 ∧ (∀ j, j < k → f (bt_candidate s inPoint j) > s.optimal_val) ∧
      f (bt_candidate s inPoint k) ≤ s.optimal_val ∧
      back_tracking_loop f inPoint s 0 =
        ({ s with optimal_point := bt_candidate s inPoint k,
                  learning_rate := s.learning_rate * (0.99 : ℚ) ^ k,
                  current_tolerance := |s.optimal_val - f (bt_candidate s inPoint k)|,
                  optimal_val := f (bt_candidate s inPoint k) }, k, true))
    ∨ ((∀ j, j ≤ 1000 → f (bt_candidate s inPoint j) > s.optimal_val) ∧
      back_tracking_loop f inPoint s 0 =
        ({ s with optimal_point := bt_candidate s inPoint 1000,
                  learning_rate := s.learning_rate * (0.99 : ℚ) ^ 1001 }, 1001, false)) := by
  by_cases hex : ∃ k, k ≤ 1000 ∧ f (bt_candidate s inPoint k) ≤ s.optimal_val
  · left
    have hspec := Nat.find_spec hex
    have hworse : ∀ j, j < Nat.find hex → f (bt_candidate s inPoint j) > s.optimal_val := by
      intro j hj
      have hmin := Nat.find_min hex hj
      have hj1000 : j ≤ 1000 := le_trans (le_of_lt hj) hspec.1
      by_contra hcon
      exact hmin ⟨hj1000, not_lt.mp hcon⟩
    refine ⟨Nat.find hex, hspec.1, hworse, hspec.2, ?_⟩
    simpa using back_tracking_loop_success f inPoint (Nat.find hex) 0 s
      (by omega) hworse hspec.2
  · right
    push_neg at hex
    exact ⟨fun j hj => hex j hj, back_tracking_loop_exhaust f inPoint 1000 0 s (by omega)
      (fun j hj => hex j hj)⟩

/-- C4.  In the classic back-tracking step: a worsening candidate multiplies
the learning rate by `0.99` and retries (third conjunct, for every counter
still below the `1000`-retry cap); when no non-worsening candidate exists
within the attempt budget the step throws the back-tracking runtime error
(first conjunct); a non-worsening candidate found within the budget is
accepted together with its value, and the live tolerance becomes the absolute
improvement (second conjunct); and the back-tracking error is distinct from
the convergence-failure error (fourth conjunct). -/
theorem claim_C4_back_tracking_decay_and_exhaustion (f : (Fin n → ℚ) → ℚ)
    (inPoint : Fin n → ℚ) (s : GDState n) :
    ((∀ k, k < 1000 → f (bt_candidate s inPoint k) > s.optimal_val) →
      ∃ e, step_forward_with_back_tracking f inPoint s = Except.error e)
    ∧ (∀ k, k < 1000 →
        (∀ j, j < k → f (bt_candidate s inPoint j) > s.optimal_val) →
        f (bt_candidate s inPoint k) ≤ s.optimal_val →
        step_forward_with_back_tracking f inPoint s =
          Except.ok { s with optimal_point := bt_candidate s inPoint k,
                             learning_rate := s.learning_rate * (0.99 : ℚ) ^ k,
                             current_tolerance := |s.optimal_val - f (bt_candidate s inPoint k)|,
                             optimal_val := f (bt_candidate s inPoint k) })
    ∧ (∀ count, count < 1000 → f (bt_candidate s inPoint 0) > s.optimal_val →
        back_tracking_loop f inPoint s count =
          back_tracking_loop f inPoint
            { s with optimal_point := bt_candidate s inPoint 0,
                     learning_rate := s.learning_rate * (0.99 : ℚ) } (count + 1))
    ∧ (∀ e : GDState n, GDError.step_failure e ≠ (GDError.convergence_failure : GDError n)) := by
  refine ⟨?_, ?_, ?_, ?_⟩
  · intro hworse
    by_cases h1000 : f (bt_candidate s inPoint 1000) ≤ s.optimal_val
    · exact ⟨_, step_back_tracking_late_break f inPoint s hworse h1000⟩
    · refine ⟨_, step_back_tracking_exhaust f inPoint s ?_⟩
      intro j hj
      rcases Nat.lt_or_ge j 1000 with h | h
      · exact hworse j h
      · have hj' : j = 1000 := by omega
        subst hj'
        exact not_le.mp h1000
  · intro k hk hworse hsucc
    exact step_back_tracking_ok f inPoint s k hk hworse hsucc
  · intro count hc h0
    exact back_tracking_loop_worse_lt f inPoint s count h0 hc
  · intro e hcon
    cases hcon

/-- C10.  When the back-tracking step throws its exhaustion error (every
candidate rejected), the engine state carried out of the step already holds
the last bounds-projected rejected candidate in `optimal_point` (the pre-step
point is not restored), while `optimal_val` and `current_tolerance` still
hold their pre-step values — the failure is not atomic. -/
theorem claim_C10_exhaustion_state_not_atomic (f : (Fin n → ℚ) → ℚ)
    (inPoint : Fin n → ℚ) (s : GDState n)
    (hworse : ∀ k, k ≤ 1000 → f (bt_candidate s inPoint k) > s.optimal_val) :
    step_forward_with_back_tracking f inPoint s =
      Except.error { s with optimal_point := bt_candidate s inPoint 1000,
                            learning_rate := s.learning_rate * (0.99 : ℚ) ^ 1001 }
    ∧ ({ s with optimal_point := bt_candidate s inPoint 1000,
                learning_rate := s.learning_rate * (0.99 : ℚ) ^ 1001 } : GDState n).optimal_val
        = s.optimal_val
    ∧ ({ s with optimal_point := bt_candidate s inPoint 1000,
                learning_rate := s.learning_rate * (0.99 : ℚ) ^ 1001 } : GDState n).current_tolerance
        = s.current_tolerance
    ∧ ({ s with optimal_point := bt_candidate s inPoint 1000,
                learning_rate := s.learning_rate * (0.99 : ℚ) ^ 1001 } : GDState n).optimal_point
        = bt_candidate s inPoint 1000 :=
  ⟨step_back_tracking_exhaust f inPoint s hworse, rfl, rfl, rfl⟩

end gd

namespace gd

variable {n : ℕ}

/-- Worse-trial branch of the secant step: the secant adjustment is added to
the learning rate, the learning rate is halved, the step is retaken once from
`inPoint`, and the retaken point and value are stored unconditionally. -/
theorem step_secant_worse (f : (Fin n → ℚ) → ℚ) (inPoint : Fin n → ℚ) (s : GDState n)
    (h : f (bounds_projection s.lower_bounds s.upper_bounds (create_next_point s inPoint))
      > s.optimal_val) :
    step_forward_with_secant_method f inPoint s =
      (let trial := bounds_projection s.lower_bounds s.upper_bounds (create_next_point s inPoint)
       let s2 : GDState n :=
         { s with optimal_point := trial,
                  learning_rate := (s.learning_rate +
                    secant_learning_rate_scaling f { s with optimal_point := trial }
                      (f trial - s.optimal_val) s.optimal_val) * (0.5 : ℚ) }
       let trial2 := bounds_projection s.lower_bounds s.upper_bounds (create_next_point s2 inPoint)
       { s2 with optimal_point := trial2, optimal_val := f trial2 }) := by
  simp only [step_forward_with_secant_method]
  rw [if_pos h]

/-- Non-worsening-trial branch of the secant step: the trial point and value
are accepted directly and the live tolerance becomes the absolute difference
between the old and the new value. -/
theorem step_secant_better (f : (Fin n → ℚ) → ℚ) (inPoint : Fin n → ℚ) (s : GDState n)
    (h : f (bounds_projection s.lower_bounds s.upper_bounds (create_next_point s inPoint))
      ≤ s.optimal_val) :
    step_forward_with_secant_method f inPoint s =
      { s with
        optimal_point := bounds_projection s.lower_bounds s.upper_bounds (create_next_point s inPoint),
        current_tolerance := |s.optimal_val -
          f (bounds_projection s.lower_bounds s.upper_bounds (create_next_point s inPoint))|,
        optimal_val := f (bounds_projection s.lower_bounds s.upper_bounds (create_next_point s inPoint)) } := by
  simp only [step_forward_with_secant_method]
  rw [if_neg (not_lt.mpr h)]

end gd

namespace gd

variable {n : ℕ}

/-- C5.  The secant-scaled step: when the first bounds-projected trial's value
exceeds the current optimal value, the secant-computed adjustment is added to
the learning rate, the rate is halved, the step is retaken exactly once and
the retaken point/value are stored with no further condition (first conjunct —
the equation holds even when the retaken value is still worse); when the first
trial is not worse, it is accepted directly and the live tolerance becomes the
absolute difference of old and new value (second conjunct). -/
theorem claim_C5_secant_single_retry (f : (Fin n → ℚ) → ℚ) (inPoint : Fin n → ℚ)
    (s : GDState n) :
    (f (bounds_projection s.lower_bounds s.upper_bounds (create_next_point s inPoint))
        > s.optimal_val →
      step_forward_with_secant_method f inPoint s =
        (let trial := bounds_projection s.lower_bounds s.upper_bounds (create_next_point s inPoint)
         let s2 : GDState n :=
           { s with optimal_point := trial,
                    learning_rate := (s.learning_rate +
                      secant_learning_rate_scaling f { s with optimal_point := trial }
                        (f trial - s.optimal_val) s.optimal_val) * (0.5 : ℚ) }
         let trial2 := bounds_projection s.lower_bounds s.upper_bounds (create_next_point s2 inPoint)
         { s2 with optimal_point := trial2, optimal_val := f trial2 }))
    ∧ (f (bounds_projection s.lower_bounds s.upper_bounds (create_next_point s inPoint))
        ≤ s.optimal_val →
      step_forward_with_secant_method f inPoint s =
        { s with
          optimal_point := bounds_projection s.lower_bounds s.upper_bounds (create_next_point s inPoint),
          current_tolerance := |s.optimal_val -
            f (bounds_projection s.lower_bounds s.upper_bounds (create_next_point s inPoint))|,
          optimal_val := f (bounds_projection s.lower_bounds s.upper_bounds (create_next_point s inPoint)) }) :=
  ⟨step_secant_worse f inPoint s, step_secant_better f inPoint s⟩

/-- Every point stored by either step-selection algorithm is the image of a
bounds projection with the engine's (unchanged) bounds. -/
theorem step_points_are_projections (f : (Fin n → ℚ) → ℚ) (inPoint : Fin n → ℚ)
    (s : GDState n) :
    (∃ q, (step_forward_with_secant_method f inPoint s).optimal_point =
        bounds_projection s.lower_bounds s.upper_bounds q)
    ∧ (∀ s', (step_forward_with_back_tracking f inPoint s = Except.ok s' ∨
        step_forward_with_back_tracking f inPoint s = Except.error s') →
        ∃ q, s'.optimal_point = bounds_projection s.lower_bounds s.upper_bounds q) := by
  constructor
  · by_cases h : f (bounds_projection s.lower_bounds s.upper_bounds (create_next_point s inPoint))
        > s.optimal_val
    · rw [step_secant_worse f inPoint s h]
      exact ⟨_, rfl⟩
    · rw [step_secant_better f inPoint s (not_lt.mp h)]
      exact ⟨_, rfl⟩
  · intro s' hs'
    have hstate : s' = (back_tracking_loop f inPoint s 0).1 := by
      rcases hs' with h | h
      · simp only [step_forward_with_back_tracking] at h
        by_cases hc : (back_tracking_loop f inPoint s 0).2.1 ≥ 1000
        · rw [if_pos hc] at h
          exact Except.noConfusion h
        · rw [if_neg hc] at h
          injection h with h'
          exact h'.symm
      · simp only [step_forward_with_back_tracking] at h
        by_cases hc : (back_tracking_loop f inPoint s 0).2.1 ≥ 1000
        · rw [if_pos hc] at h
          injection h with h'
          exact h'.symm
        · rw [if_neg hc] at h
          exact Except.noConfusion h
    rcases back_tracking_loop_run_cases f inPoint s with ⟨k, _, _, _, heq⟩ | ⟨_, heq⟩
    · rw [hstate, heq]
      exact ⟨_, rfl⟩
    · rw [hstate, heq]
      exact ⟨_, rfl⟩

end gd

namespace gd

variable {n : ℕ}

/-- The projected coordinate lies in `[lbᵢ, ubᵢ]` whenever `lbᵢ ≤ ubᵢ`. -/
theorem bounds_projection_mem (lb ub p : Fin n → ℚ) (h : ∀ i, lb i ≤ ub i) (i : Fin n) :
    lb i ≤ bounds_projection lb ub p i ∧ bounds_projection lb ub p i ≤ ub i := by
  simp only [bounds_projection]
  split_ifs with h1 h2 h3 <;> constructor <;> linarith [h i]

/-- With both bounds zero, the projection collapses every coordinate to `0`. -/
theorem bounds_projection_zero (p : Fin n → ℚ) (i : Fin n) :
    bounds_projection (default_bounds n) (default_bounds n) p i = 0 := by
  simp only [bounds_projection, default_bounds]
  split_ifs with h1 h2 h3 <;> linarith

/-- C8.  Bounds projection keeps every coordinate within `[lowerᵢ, upperᵢ]`
whenever the bounds are ordered (first conjunct); consequently the point
stored by the secant step and the point accepted by the back-tracking step lie
within the bounds (second conjunct). -/
theorem claim_C8_bounds_projection_in_bounds :
    (∀ (lb ub p : Fin n → ℚ), (∀ i, lb i ≤ ub i) →
      ∀ i, lb i ≤ bounds_projection lb ub p i ∧ bounds_projection lb ub p i ≤ ub i)
    ∧ (∀ (f : (Fin n → ℚ) → ℚ) (inPoint : Fin n → ℚ) (s : GDState n),
        (∀ i, s.lower_bounds i ≤ s.upper_bounds i) →
        (∀ i, s.lower_bounds i ≤ (step_forward_with_secant_method f inPoint s).optimal_point i
          ∧ (step_forward_with_secant_method f inPoint s).optimal_point i ≤ s.upper_bounds i)
        ∧ (∀ s', step_forward_with_back_tracking f inPoint s = Except.ok s' →
            ∀ i, s.lower_bounds i ≤ s'.optimal_point i ∧ s'.optimal_point i ≤ s.upper_bounds i)) := by
  refine ⟨fun lb ub p h i => bounds_projection_mem lb ub p h i, fun f inPoint s hb => ⟨?_, ?_⟩⟩
  · intro i
    obtain ⟨q, hq⟩ := (step_points_are_projections f inPoint s).1
    rw [hq]
    exact bounds_projection_mem _ _ q hb i
  · intro s' hok i
    obtain ⟨q, hq⟩ := (step_points_are_projections f inPoint s).2 s' (Or.inl hok)
    rw [hq]
    exact bounds_projection_mem _ _ q hb i

/-- C9.  When `add_lower_bounds`/`add_upper_bounds` are never called, the
bound members stay value-initialised at zero (`default_bounds`), and since
both step algorithms pass every candidate through `bounds_projection`, every
stored point of such a run has all coordinates clamped to exactly `0`. -/
theorem claim_C9_default_bounds_clamp_to_zero :
    (∀ i : Fin n, default_bounds n i = 0)
    ∧ (∀ (p : Fin n → ℚ) (i : Fin n),
        bounds_projection (default_bounds n) (default_bounds n) p i = 0)
    ∧ (∀ (f : (Fin n → ℚ) → ℚ) (inPoint : Fin n → ℚ) (s : GDState n),
        s.lower_bounds = default_bounds n → s.upper_bounds = default_bounds n →
        (∀ i, (step_forward_with_secant_method f inPoint s).optimal_point i = 0)
        ∧ (∀ s', step_forward_with_back_tracking f inPoint s = Except.ok s' →
            ∀ i, s'.optimal_point i = 0)) := by
  refine ⟨fun _ => rfl, fun p i => bounds_projection_zero p i, fun f inPoint s hlb hub => ⟨?_, ?_⟩⟩
  · intro i
    obtain ⟨q, hq⟩ := (step_points_are_projections f inPoint s).1
    rw [hq, hlb, hub]
    exact bounds_projection_zero q i
  · intro s' hok i
    obtain ⟨q, hq⟩ := (step_points_are_projections f inPoint s).2 s' (Or.inl hok)
    rw [hq, hlb, hub]
    exact bounds_projection_zero q i

end gd

namespace gd

variable {n : ℕ}

/-- The helper never changes the derivative vector. -/
theorem shd_helper_derivatives (i : Fin n) (s : GDState n) :
    (set_high_derivatives_helper i s).derivatives = s.derivatives := by
  unfold set_high_derivatives_helper
  split_ifs <;> rfl

/-- Pointwise effect of the helper on `derivative_high`. -/
theorem shd_helper_high (i : Fin n) (s : GDState n) (j : Fin n) :
    (set_high_derivatives_helper i s).derivative_high j =
      if j = i ∧ |s.derivatives i| > |s.derivative_high i| then s.derivatives i
      else s.derivative_high j := by
  unfold set_high_derivatives_helper
  by_cases ht : |s.derivatives i| > |s.derivative_high i|
  · rw [if_pos ht]
    by_cases hj : j = i
    · subst hj
      simp [Function.update_same, ht]
    · simp [Function.update_noteq hj, hj]
  · rw [if_neg ht]
    simp [ht]

/-- Effect of the helper on the learning rate. -/
theorem shd_helper_lr (i : Fin n) (s : GDState n) :
    (set_high_derivatives_helper i s).learning_rate =
      if |s.derivatives i| > |s.derivative_high i| then 1 else s.learning_rate := by
  unfold set_high_derivatives_helper
  split_ifs <;> rfl

/-- Characterisation of the fold over any duplicate-free index list. -/
theorem shd_foldl_spec (l : List (Fin n)) (hl : l.Nodup) (s : GDState n) :
    ((l.foldl (fun t i => set_high_derivatives_helper i t) s).derivatives = s.derivatives)
    ∧ (∀ j, (l.foldl (fun t i => set_high_derivatives_helper i t) s).derivative_high j =
        if j ∈ l ∧ |s.derivatives j| > |s.derivative_high j| then s.derivatives j
        else s.derivative_high j)
    ∧ ((l.foldl (fun t i => set_high_derivatives_helper i t) s).learning_rate =
        if ∃ j ∈ l, |s.derivatives j| > |s.derivative_high j| then 1 else s.learning_rate) := by
  induction l generalizing s with
  | nil =>
    refine ⟨rfl, fun j => ?_, ?_⟩
    · simp
    · simp
  | cons i t ih =>
    obtain ⟨hit, htd⟩ := List.nodup_cons.mp hl
    obtain ⟨ihd, ihh, ihlr⟩ := ih htd (set_high_derivatives_helper i s)
    have hd' : (set_high_derivatives_helper i s).derivatives = s.derivatives :=
      shd_helper_derivatives i s
    have hh' : ∀ j, j ≠ i →
        (set_high_derivatives_helper i s).derivative_high j = s.derivative_high j := by
      intro j hj
      rw [shd_helper_high i s j, if_neg (fun hc => hj hc.1)]
    refine ⟨by rw [List.foldl_cons, ihd, hd'], fun j => ?_, ?_⟩
    · rw [List.foldl_cons, ihh j, hd']
      by_cases hjt : j ∈ t
      · have hji : j ≠ i := fun hc => hit (hc ▸ hjt)
        rw [hh' j hji]
        by_cases htr : |s.derivatives j| > |s.derivative_high j|
        · rw [if_pos ⟨hjt, htr⟩, if_pos ⟨List.mem_cons_of_mem i hjt, htr⟩]
        · rw [if_neg (fun hc => htr hc.2), if_neg (fun hc => htr hc.2)]
      · rw [if_neg (fun hc => hjt hc.1)]
        by_cases hji : j = i
        · subst hji
          rw [shd_helper_high j s j]
          by_cases htr : |s.derivatives j| > |s.derivative_high j|
          · rw [if_pos ⟨rfl, htr⟩, if_pos ⟨List.mem_cons_self j t, htr⟩]
          · rw [if_neg (fun hc => htr hc.2), if_neg (fun hc => htr hc.2)]
        · rw [hh' j hji, if_neg ?_]
          intro hc
          rcases List.mem_cons.mp hc.1 with h | h
          · exact hji h
          · exact hjt h
    · rw [List.foldl_cons, ihlr]
      have hex : (∃ j ∈ t, |(set_high_derivatives_helper i s).derivatives j|
            > |(set_high_derivatives_helper i s).derivative_high j|)
          ↔ (∃ j ∈ t, |s.derivatives j| > |s.derivative_high j|) := by
        constructor
        · rintro ⟨j, hjt, hj⟩
          have hji : j ≠ i := fun hc => hit (hc ▸ hjt)
          rw [hd', hh' j hji] at hj
          exact ⟨j, hjt, hj⟩
        · rintro ⟨j, hjt, hj⟩
          have hji : j ≠ i := fun hc => hit (hc ▸ hjt)
          refine ⟨j, hjt, ?_⟩
          rw [hd', hh' j hji]
          exact hj
      rw [shd_helper_lr i s]
      by_cases hti : |s.derivatives i| > |s.derivative_high i|
      · by_cases hte : ∃ j ∈ t, |s.derivatives j| > |s.derivative_high j|
        · rw [if_pos (hex.mpr hte), if_pos ⟨i, List.mem_cons_self i t, hti⟩]
        · rw [if_neg (fun hc => hte (hex.mp hc)), if_pos hti,
            if_pos ⟨i, List.mem_cons_self i t, hti⟩]
      · by_cases hte : ∃ j ∈ t, |s.derivatives j| > |s.derivative_high j|
        · rw [if_pos (hex.mpr hte), if_pos ?_]
          obtain ⟨j, hjt, hj⟩ := hte
          exact ⟨j, List.mem_cons_of_mem i hjt, hj⟩
        · rw [if_neg (fun hc => hte (hex.mp hc)), if_neg hti, if_neg ?_]
          rintro ⟨j, hjc, hj⟩
          rcases List.mem_cons.mp hjc with h | h
          · exact hti (h ▸ hj)
          · exact hte ⟨j, h, hj⟩

end gd

namespace gd

variable {n : ℕ}

/-- C6.  One application of `set_high_derivatives` (the only writer of
`derivative_high`): the magnitude of each recorded highest derivative never
decreases (first conjunct); a dimension's record is replaced by the current
derivative exactly when its magnitude strictly exceeds the record (second
conjunct); the learning rate is reset to `1.0` when some dimension's current
|derivative| strictly exceeds its record (third conjunct) and is left
untouched otherwise (fourth conjunct); and neither step-selection algorithm
ever writes `derivative_high` (fifth and sixth conjuncts), so the record is
never reset elsewhere in an iteration. -/
theorem claim_C6_high_derivative_monotone_and_lr_reset (s : GDState n) :
    (∀ i, |s.derivative_high i| ≤ |(set_high_derivatives s).derivative_high i|)
    ∧ (∀ i, (set_high_derivatives s).derivative_high i =
        if |s.derivatives i| > |s.derivative_high i| then s.derivatives i
        else s.derivative_high i)
    ∧ ((∃ i, |s.derivatives i| > |s.derivative_high i|) →
        (set_high_derivatives s).learning_rate = 1)
    ∧ ((∀ i, ¬ |s.derivatives i| > |s.derivative_high i|) →
        (set_high_derivatives s).learning_rate = s.learning_rate)
    ∧ (∀ (f : (Fin n → ℚ) → ℚ) (inPoint : Fin n → ℚ),
        (step_forward_with_secant_method f inPoint s).derivative_high = s.derivative_high)
    ∧ (∀ (f : (Fin n → ℚ) → ℚ) (inPoint : Fin n → ℚ),
        ((back_tracking_loop f inPoint s 0).1).derivative_high = s.derivative_high) := by
  obtain ⟨-, hhigh, hlr⟩ := shd_foldl_spec (List.finRange n) (List.nodup_finRange n) s
  have hchar : ∀ i, (set_high_derivatives s).derivative_high i =
      if |s.derivatives i| > |s.derivative_high i| then s.derivatives i
      else s.derivative_high i := by
    intro i
    unfold set_high_derivatives
    rw [hhigh i]
    by_cases ht : |s.derivatives i| > |s.derivative_high i|
    · rw [if_pos ⟨List.mem_finRange i, ht⟩, if_pos ht]
    · rw [if_neg (fun hc => ht hc.2), if_neg ht]
  refine ⟨?_, hchar, ?_, ?_, ?_, ?_⟩
  · intro i
    rw [hchar i]
    by_cases ht : |s.derivatives i| > |s.derivative_high i|
    · rw [if_pos ht]
      exact le_of_lt ht
    · rw [if_neg ht]
  · rintro ⟨i, hi⟩
    unfold set_high_derivatives
    rw [hlr, if_pos ⟨i, List.mem_finRange i, hi⟩]
  · intro hnone
    unfold set_high_derivatives
    rw [hlr, if_neg ?_]
    rintro ⟨j, -, hj⟩
    exact hnone j hj
  · intro f inPoint
    by_cases h : f (bounds_projection s.lower_bounds s.upper_bounds (create_next_point s inPoint))
        > s.optimal_val
    · rw [step_secant_worse f inPoint s h]
    · rw [step_secant_better f inPoint s (not_lt.mp h)]
  · intro f inPoint
    rcases back_tracking_loop_run_cases f inPoint s with ⟨k, -, -, -, heq⟩ | ⟨-, heq⟩ <;>
      rw [heq]

end gd

namespace gd

variable {n : ℕ}

/-- C3.  The outer do-while of `perform_gradient_decent`: after each body run
the loop repeats exactly when the pre-increment counter is below the
max-evaluation budget AND the combined metric `get_tolerance` (live tolerance
plus point distance) exceeds the configured tolerance, the counter being
incremented unconditionally (first conjunct).  After the loop exits normally,
the run throws the convergence failure if and only if the counter reached the
budget AND the live tolerance alone exceeds the configured tolerance, and
otherwise returns the pair `(optimal_val, optimal_point)` (second conjunct). -/
theorem claim_C3_loop_guard_and_convergence_failure
    (dist : (Fin n → ℚ) → (Fin n → ℚ) → ℚ)
    (body : GDState n → Except (GDState n) (GDState n)) (max_eval : ℕ) (tolerance : ℚ) :
    (∀ (s0 s' : GDState n) (eval : ℕ), body s0 = Except.ok s' →
      gd_loop dist body max_eval tolerance s0 eval =
        if eval < max_eval ∧ get_tolerance dist s' > tolerance then
          gd_loop dist body max_eval tolerance s' (eval + 1)
        else Except.ok (s', eval + 1))
    ∧ (∀ (s s' : GDState n) (eval : ℕ),
        gd_loop dist body max_eval tolerance s 0 = Except.ok (s', eval) →
        ((perform_gradient_decent dist body max_eval tolerance s =
            Except.error GDError.convergence_failure
          ↔ eval ≥ max_eval ∧ s'.current_tolerance > tolerance)
        ∧ (¬(eval ≥ max_eval ∧ s'.current_tolerance > tolerance) →
            perform_gradient_decent dist body max_eval tolerance s =
              Except.ok (s'.optimal_val, s'.optimal_point)))) := by
  constructor
  · intro s0 s' eval hb
    rw [gd_loop]
    simp only [hb]
    split_ifs <;> rfl
  · intro s s' eval h
    simp only [perform_gradient_decent, h]
    by_cases hc : eval ≥ max_eval ∧ s'.current_tolerance > tolerance
    · rw [if_pos hc]
      exact ⟨⟨fun _ => hc, fun _ => rfl⟩, fun hn => absurd hc hn⟩
    · rw [if_neg hc]
      exact ⟨⟨fun heq => Except.noConfusion heq, fun h' => absurd h' hc⟩, fun _ => rfl⟩

end gd

namespace aux

/-- `penalty_sum` is the sum of the per-constraint violation contributions
over the zipped obtained/target/operator/tolerance collections. -/
theorem penalty_sum_eq (maxV : ℚ) : ∀ (os vs : List ℚ) (ps : List String) (ts : List ℚ),
    penalty_sum maxV os vs ps ts =
      (((os.zip vs).zip (ps.zip ts)).map fun x =>
        get_constraint_violation maxV x.1.1 x.1.2 x.2.1 x.2.2).sum := by
  intro os
  induction os with
  | nil =>
    intro vs ps ts
    simp [penalty_sum]
  | cons o os ih =>
    intro vs ps ts
    cases vs with
    | nil => simp [penalty_sum]
    | cons v vs =>
      cases ps with
      | nil => simp [penalty_sum]
      | cons p ps =>
        cases ts with
        | nil => simp [penalty_sum]
        | cons t ts =>
          simp [penalty_sum, ih]

/-- If some stored constraint function raises on the argument point, the
sequential evaluation loop raises. -/
theorem apply_all_error {m : ℕ} (args : Fin m → ℚ) :
    ∀ (cs : List ((Fin m → ℚ) → Except Unit ℚ)),
      (∃ c ∈ cs, c args = Except.error ()) → apply_all cs args = Except.error () := by
  intro cs
  induction cs with
  | nil =>
    rintro ⟨c, hc, -⟩
    cases hc
  | cons c t ih =>
    rintro ⟨c', hc', herr⟩
    rcases List.mem_cons.mp hc' with h | h
    · subst h
      simp only [apply_all, herr]
    · rcases hmatch : c args with e | v
      · cases e
        simp only [apply_all, hmatch]
      · simp only [apply_all, hmatch, ih ⟨c', h, herr⟩]

/-- C2.  The violation table of `get_constraint_violation`: for each relational
operator the contribution is `|obtained - required|` exactly under the listed
conditions and `0` otherwise; the `"!="` operator yields the maximum
representable value when `|diff| < tolerance`; any operator string outside the
table contributes `0`; and on a fault-free evaluation `get_penalty` is the sum
of all contributions multiplied by the slope constant `1e9`. -/
theorem claim_C2_violation_table_and_penalty_slope (maxV obt req tol : ℚ) :
    (get_constraint_violation maxV obt req "<" tol =
      if obt - req ≥ 0 ∧ |obt - req| > tol then |obt - req| else 0)
    ∧ (get_constraint_violation maxV obt req "<=" tol =
      if obt - req > 0 ∧ |obt - req| > tol then |obt - req| else 0)
    ∧ (get_constraint_violation maxV obt req ">" tol =
      if obt - req ≤ 0 ∧ |obt - req| > tol then |obt - req| else 0)
    ∧ (get_constraint_violation maxV obt req ">=" tol =
      if obt - req < 0 ∧ |obt - req| > tol then |obt - req| else 0)
    ∧ (get_constraint_violation maxV obt req "=" tol =
      if |obt - req| > tol then |obt - req| else 0)
    ∧ (get_constraint_violation maxV obt req "!=" tol =
      if |obt - req| < tol then maxV else 0)
    ∧ (∀ op : String, op ∉ (["<", "<=", ">", ">=", "=", "!="] : List String) →
        get_constraint_violation maxV obt req op tol = 0)
    ∧ (∀ (m : ℕ) (cs : List ((Fin m → ℚ) → Except Unit ℚ)) (vs : List ℚ)
        (ops : List String) (ts : List ℚ) (args : Fin m → ℚ) (obtained : List ℚ),
        apply_all cs args = Except.ok obtained →
        get_penalty maxV cs vs ops ts args =
          (1000000000.0 : ℚ) * (((obtained.zip vs).zip (ops.zip ts)).map fun x =>
            get_constraint_violation maxV x.1.1 x.1.2 x.2.1 x.2.2).sum) := by
  refine ⟨?_, ?_, ?_, ?_, ?_, ?_, ?_, ?_⟩
  · simp only [get_constraint_violation]
    by_cases h : obt - req ≥ 0 ∧ |obt - req| > tol
    · simp [h]
    · simp [h]
  · simp only [get_constraint_violation]
    by_cases h : obt - req > 0 ∧ |obt - req| > tol
    · simp [h]
    · simp [h]
  · simp only [get_constraint_violation]
    by_cases h : obt - req ≤ 0 ∧ |obt - req| > tol
    · simp [h]
    · simp [h]
  · simp only [get_constraint_violation]
    by_cases h : obt - req < 0 ∧ |obt - req| > tol
    · simp [h]
    · simp [h]
  · simp only [get_constraint_violation]
    by_cases h : |obt - req| > tol
    · simp [h]
    · simp [h]
  · simp only [get_constraint_violation]
    by_cases h : |obt - req| < tol
    · simp [h]
    · simp [h]
  · intro op hop
    simp only [List.mem_cons, List.mem_singleton, not_or] at hop
    obtain ⟨h1, h2, h3, h4, h5, h6, -⟩ := hop
    simp [get_constraint_violation, h1, h2, h3, h4, h5, h6]
  · intro m cs vs ops ts args obtained h
    simp only [get_penalty, h]
    rw [penalty_sum_eq]

end aux

namespace aux

/-- C7.  If any stored constraint function raises while `get_penalty`
evaluates a point, the exception is caught and the whole penalty for that
point is the default value `0`; `get_penalty` itself never propagates the
failure (it is a total function into `ℚ`), so the optimisation run
continues. -/
theorem claim_C7_constraint_fault_zero_penalty (maxV : ℚ) {m : ℕ}
    (cs : List ((Fin m → ℚ) → Except Unit ℚ)) (vs : List ℚ) (ops : List String)
    (ts : List ℚ) (args : Fin m → ℚ)
    (hex : ∃ c ∈ cs, c args = Except.error ()) :
    get_penalty maxV cs vs ops ts args = 0 := by
  simp only [get_penalty, apply_all_error args cs hex]

end aux

namespace gd

/-- C1.  Code bug: with the two-dimensional guess `(-5, 0)`, installing the
lower bounds `(0, 0)` leaves the first coordinate strictly below its lower
bound, yet `add_lower_bounds` returns normally (first two conjuncts); and with
upper bounds `(-10, -10)` every coordinate lies strictly above its upper
bound, yet `add_upper_bounds` also returns normally (last two conjuncts).
`check_point_bounds` only reports `true` when every coordinate is
simultaneously below its lower bound and above its upper bound, so the
runtime error promised for an out-of-bounds initial guess is never thrown
here, contradicting the documented behaviour of both methods. -/
theorem claim_C1_out_of_bounds_guess_not_rejected :
    c1_state.optimal_point 0 < c1_lower 0
    ∧ add_lower_bounds c1_state c1_lower =
        Except.ok { c1_state with lower_bounds := c1_lower }
    ∧ (∀ i, c1_state.optimal_point i > c1_upper i)
    ∧ add_upper_bounds c1_state c1_upper =
        Except.ok { c1_state with upper_bounds := c1_upper } := by
  refine ⟨by decide, ?_, by decide, ?_⟩
  · have hc : check_point_bounds { c1_state with lower_bounds := c1_lower } = false := by decide
    simp [add_lower_bounds, hc]
  · have hc : check_point_bounds { c1_state with upper_bounds := c1_upper } = false := by decide
    simp [add_upper_bounds, hc]

/-- Witness for C3 at `max_eval = 0`, `tolerance = 0`: the loop exits after
one unconditional body run with counter `1`, and since `1 ≥ 0` and the live
tolerance `1` exceeds `0`, the run throws the convergence failure. -/
theorem claim_C3_witness :
    gd_loop demo_dist demo_body 0 0 demo_state 0 = Except.ok (demo_state, 1)
    ∧ perform_gradient_decent demo_dist demo_body 0 0 demo_state =
        Except.error GDError.convergence_failure := by
  have h : gd_loop demo_dist demo_body 0 0 demo_state 0 = Except.ok (demo_state, 1) := by
    rw [gd_loop]
    simp [demo_body]
  exact ⟨h, ((claim_C3_loop_guard_and_convergence_failure demo_dist demo_body 0 0).2
    demo_state demo_state 1 h).1.mpr ⟨by omega, by norm_num [demo_state]⟩⟩

/-- Witness for C4: with the constant objective `-1` the very first candidate
is accepted, the learning rate is untouched and the live tolerance becomes the
absolute improvement `1`. -/
theorem claim_C4_witness :
    demo_f_improving (bt_candidate demo_state demo_point 0) ≤ demo_state.optimal_val
    ∧ step_forward_with_back_tracking demo_f_improving demo_point demo_state =
        Except.ok { demo_state with
          optimal_point := bt_candidate demo_state demo_point 0,
          learning_rate := demo_state.learning_rate * (0.99 : ℚ) ^ 0,
          current_tolerance :=
            |demo_state.optimal_val - demo_f_improving (bt_candidate demo_state demo_point 0)|,
          optimal_val := demo_f_improving (bt_candidate demo_state demo_point 0) } :=
  ⟨by decide,
   (claim_C4_back_tracking_decay_and_exhaustion demo_f_improving demo_point demo_state).2.1 0
     (by omega) (fun j hj => absurd hj (Nat.not_lt_zero j)) (by decide)⟩

/-- Witness for C5: with the constant objective `-1` the first trial is not
worse, so it is accepted directly with live tolerance `1`. -/
theorem claim_C5_witness :
    demo_f_improving (bounds_projection demo_state.lower_bounds demo_state.upper_bounds
        (create_next_point demo_state demo_point)) ≤ demo_state.optimal_val
    ∧ step_forward_with_secant_method demo_f_improving demo_point demo_state =
        { demo_state with
          optimal_point := bounds_projection demo_state.lower_bounds demo_state.upper_bounds
            (create_next_point demo_state demo_point),
          current_tolerance := |demo_state.optimal_val -
            demo_f_improving (bounds_projection demo_state.lower_bounds demo_state.upper_bounds
              (create_next_point demo_state demo_point))|,
          optimal_val := demo_f_improving (bounds_projection demo_state.lower_bounds
            demo_state.upper_bounds (create_next_point demo_state demo_point)) } :=
  ⟨by decide,
   (claim_C5_secant_single_retry demo_f_improving demo_point demo_state).2 (by decide)⟩

/-- Witness for C6: `demo_state` has derivative `1` and recorded maximum `0`
in its only dimension, so the learning rate is reset to `1`. -/
theorem claim_C6_witness :
    (∃ i : Fin 1, |demo_state.derivatives i| > |demo_state.derivative_high i|)
    ∧ (set_high_derivatives demo_state).learning_rate = 1 :=
  ⟨⟨0, by decide⟩,
   (claim_C6_high_derivative_monotone_and_lr_reset demo_state).2.2.1 ⟨0, by decide⟩⟩

/-- Witness for C8: on `demo_state` (bounds `[-10, 10]`) the point stored by
the secant step with the constant worsening objective stays within bounds. -/
theorem claim_C8_witness :
    (∀ i, demo_state.lower_bounds i ≤ demo_state.upper_bounds i)
    ∧ (∀ i, demo_state.lower_bounds i ≤
          (step_forward_with_secant_method demo_f_worsening demo_point demo_state).optimal_point i
        ∧ (step_forward_with_secant_method demo_f_worsening demo_point demo_state).optimal_point i
          ≤ demo_state.upper_bounds i) :=
  ⟨by decide,
   (claim_C8_bounds_projection_in_bounds.2 demo_f_worsening demo_point demo_state (by decide)).1⟩

/-- Witness for C9: with the value-initialised zero bounds the secant step
stores the all-zero point. -/
theorem claim_C9_witness :
    demo_state_zero_bounds.lower_bounds = default_bounds 1
    ∧ demo_state_zero_bounds.upper_bounds = default_bounds 1
    ∧ (∀ i, (step_forward_with_secant_method demo_f_improving demo_point
        demo_state_zero_bounds).optimal_point i = 0) :=
  ⟨rfl, rfl,
   (claim_C9_default_bounds_clamp_to_zero.2.2 demo_f_improving demo_point
     demo_state_zero_bounds rfl rfl).1⟩

/-- Witness for C10: with the constant objective `1` every candidate is
rejected, and the step throws with the 1001st candidate stored and the
pre-step optimal value `0` retained. -/
theorem claim_C10_witness :
    (∀ k, k ≤ 1000 →
      demo_f_worsening (bt_candidate demo_state demo_point k) > demo_state.optimal_val)
    ∧ step_forward_with_back_tracking demo_f_worsening demo_point demo_state =
        Except.error { demo_state with
          optimal_point := bt_candidate demo_state demo_point 1000,
          learning_rate := demo_state.learning_rate * (0.99 : ℚ) ^ 1001 } :=
  ⟨fun k _ => by norm_num [demo_f_worsening, demo_state],
   (claim_C10_exhaustion_state_not_atomic demo_f_worsening demo_point demo_state
     (fun k _ => by norm_num [demo_f_worsening, demo_state])).1⟩

end gd

namespace aux

/-- Witness for C2 at `maxV = 7`, `obtained = 5`, `required = 3`,
`tolerance = 1`: the unknown operator `"foo"` contributes `0`, and a fault-free
empty-constraint evaluation yields the slope times the (empty) contribution
sum. -/
theorem claim_C2_witness :
    ("foo" : String) ∉ (["<", "<=", ">", ">=", "=", "!="] : List String)
    ∧ get_constraint_violation 7 5 3 "foo" 1 = 0
    ∧ apply_all ([] : List ((Fin 1 → ℚ) → Except Unit ℚ)) gd.demo_point = Except.ok []
    ∧ get_penalty 7 ([] : List ((Fin 1 → ℚ) → Except Unit ℚ)) [] [] [] gd.demo_point =
        (1000000000.0 : ℚ) * (((([] : List ℚ).zip ([] : List ℚ)).zip
          (([] : List String).zip ([] : List ℚ))).map fun x =>
            get_constraint_violation 7 x.1.1 x.1.2 x.2.1 x.2.2).sum :=
  ⟨by decide,
   (claim_C2_violation_table_and_penalty_slope 7 5 3 1).2.2.2.2.2.2.1 "foo" (by decide),
   rfl,
   (claim_C2_violation_table_and_penalty_slope 7 5 3 1).2.2.2.2.2.2.2 1 [] [] [] []
     gd.demo_point [] rfl⟩

/-- Witness for C7: a single always-raising constraint forces the penalty for
the evaluated point to `0`. -/
theorem claim_C7_witness :
    (∃ c ∈ [demo_failing_constraint], c gd.demo_point = Except.error ())
    ∧ get_penalty 7 [demo_failing_constraint] [0] ["<="] [1] gd.demo_point = 0 :=
  ⟨⟨demo_failing_constraint, List.mem_singleton.mpr rfl, rfl⟩,
   claim_C7_constraint_fault_zero_penalty 7 [demo_failing_constraint] [0] ["<="] [1]
     gd.demo_point ⟨demo_failing_constraint, List.mem_singleton.mpr rfl, rfl⟩⟩

end aux
